import Mathlib

/-!
Verification development for the EDGAR filing-analysis app
(source: src/streamlit_app.py).

The Python source is shallowly embedded below: pure helpers become Lean
functions; network interaction is made explicit by passing the responses a
call would receive as arguments and by returning the list of issued HTTP
request events together with the list of UI error messages the function
emits (st.error calls).  Python exceptions are modelled with Except; the
try/except blocks of the source become explicit matches on the Except
value.  Machine floats are modelled by exact rationals; what the claims
need from floats is only which strings parse successfully and the
arithmetic mean of the parsed values.
-/

/-! ## String helpers -/

/-- Embeds Python str.upper for the ASCII tickers the app handles. -/
def pyUpper (s : String) : String := ⟨s.data.map Char.toUpper⟩

/-- Embeds Python str.zfill: left-pad with zero characters to the width. -/
def zfill (s : String) (w : Nat) : String := ⟨List.replicate (w - s.data.length) '0' ++ s.data⟩

/-- Embeds the accession clean-up acc.replace with hyphen and empty string
(src line 182): every hyphen character is removed. -/
def stripHyphens (s : String) : String := ⟨s.data.filter (fun c => decide (c ≠ '-'))⟩

/-- Fixed archive base of the document URL template (src line 183). -/
def archiveBase : String := "https://www.sec.gov/Archives/edgar/data/"

/-- Embeds the document URL construction of src line 183: identifier,
hyphen-stripped accession number and primary document filename interpolated
into the fixed archive path template. -/
def documentUrl (cik acc doc : String) : String :=
  archiveBase ++ cik ++ "/" ++ stripHyphens acc ++ "/" ++ doc

/-- Decides that a string is a valid 10-digit zero-padded identifier. -/
def validCik (s : String) : Bool :=
  s.data.length = 10 && s.data.all Char.isDigit

/-- Decides that a string is a valid accession identifier, ten digits, a
hyphen, two digits, a hyphen, six digits. -/
def validAccession (s : String) : Bool :=
  s.data.length = 20 &&
  (s.data.take 10).all Char.isDigit &&
  ((s.data.drop 10).take 1 = ['-'] : Bool) &&
  ((s.data.drop 11).take 2).all Char.isDigit &&
  ((s.data.drop 13).take 1 = ['-'] : Bool) &&
  (s.data.drop 14).all Char.isDigit

/-! ## Dates

The source parses filing dates with datetime.strptime and the pattern
year-month-day and compares them against a window ending at datetime.now.
Dates are embedded as proleptic-Gregorian ordinals (days since the epoch of
Python date.toordinal), so that the timedelta subtraction of the source is
integer subtraction. -/

def isLeapYear (y : Nat) : Bool := (y % 4 = 0 && y % 100 ≠ 0) || y % 400 = 0

/-- Days in the months strictly before month m, for a non-leap year. -/
def daysBeforeMonth (m : Nat) : Nat :=
  [0, 31, 59, 90, 120, 151, 181, 212, 243, 273, 304, 334].getD (m - 1) 0

/-- Ordinal of a Gregorian calendar date, counting as Python date.toordinal. -/
def toOrdinal (y m d : Nat) : Nat :=
  (y - 1) * 365 + (y - 1) / 4 - (y - 1) / 100 + (y - 1) / 400 +
    (daysBeforeMonth m + (if isLeapYear y && decide (2 < m) then 1 else 0)) + d

/-- Parses a run of decimal digit characters; none when empty or non-digit. -/
def parseNatDigits (l : List Char) : Option Nat :=
  if !l.isEmpty && l.all Char.isDigit then
    some (l.foldl (fun a c => a * 10 + (c.toNat - 48)) 0)
  else none

/-- Splits a character list on the dash separator. -/
def splitDash : List Char → List (List Char)
  | [] => [[]]
  | c :: rest =>
    match splitDash rest with
    | [] => [[]]
    | g :: gs => if c = '-' then [] :: g :: gs else (c :: g) :: gs

/-- Number of days of a month in a given year, February leap-adjusted. -/
def daysInMonth (y m : Nat) : Nat :=
  if m = 2 ∧ isLeapYear y then 29
  else [31, 28, 31, 30, 31, 30, 31, 31, 30, 31, 30, 31].getD (m - 1) 0

/-- Embeds datetime.strptime with the year-month-day pattern (src line 180):
the year group is exactly four digits (the Python pattern for the year is
four digits, and the year zero is rejected by the date constructor), the
month group is one or two digits with a value from one to twelve, and the
day group is one or two digits validated against the length of the month
in that year, leap years included; everything else raises ValueError,
modelled as error. -/
def parseDate (s : String) : Except String Int :=
  match splitDash s.data with
  | [y, m, d] =>
    match parseNatDigits y, parseNatDigits m, parseNatDigits d with
    | some yv, some mv, some dv =>
      if y.length = 4 ∧ 1 ≤ yv ∧ m.length ≤ 2 ∧ 1 ≤ mv ∧ mv ≤ 12
          ∧ d.length ≤ 2 ∧ 1 ≤ dv ∧ dv ≤ daysInMonth yv mv then
        .ok (toOrdinal yv mv dv)
      else .error "ValueError"
    | _, _, _ => .error "ValueError"
  | _ => .error "ValueError"

def isOkE {ε α : Type} : Except ε α → Bool
  | .ok _ => true
  | .error _ => false

/-! ## HTTP layer

An outbound request is recorded as an HttpEvent carrying the URL and the
delay enforced immediately before the request is issued.  sec_request
(src lines 126 to 129) sleeps a tenth of a second and performs exactly one
requests.get with no inspection of the response status and no retry; it is
embedded over an explicit queue of pending responses, consuming one. -/

structure HttpEvent where
  url : String
  delayBeforeMs : Nat
deriving DecidableEq

structure RawResponse where
  status : Nat
deriving DecidableEq

/-- Embeds sec_request: a 100 ms sleep, then one requests.get consuming the
next queued response.  The source contains no status check and no retry. -/
def sec_request (url : String) (net : List RawResponse) :
    Option RawResponse × List RawResponse × HttpEvent :=
  (net.head?, net.tail, ⟨url, 100⟩)

/-- Event emitted by one sec_request call: the sleep precedes the request. -/
def sec_request_event (url : String) : HttpEvent := ⟨url, 100⟩

/-- Responses as the downstream functions see them: a status code and the
result of response.json, which raises (error) on a malformed body. -/
structure Response (α : Type) where
  status : Nat
  body : Except String α

/-! ## Company resolution (get_company_info, src lines 131 to 150) -/

/-- Record of the bulk company_tickers.json table. -/
structure TickerEntry where
  cik_str : Nat
  ticker : String
  title : String
deriving DecidableEq

structure Company where
  cik : String
  name : String
  ticker : String
deriving DecidableEq

def tickersUrl : String := "https://www.sec.gov/files/company_tickers.json"

def submissionsUrl (cik : String) : String :=
  "https://data.sec.gov/submissions/CIK" ++ cik ++ ".json"

/-- Embeds get_company_info.  The transport layer is passed in: an error
value is a requests exception, an ok value is the received response.  The
result carries the returned company (none both when the ticker is unknown
and when an error path was taken), the issued request events, and the
st.error messages emitted.  The whole body sits in try/except, so every
exception is caught and turned into none plus an error message. -/
def get_company_info (ticker : String)
    (resp : Except String (Response (List TickerEntry))) :
    Option Company × List HttpEvent × List String :=
  let ev := [sec_request_event tickersUrl]
  match resp with
  | .error e => (none, ev, ["Error looking up company: " ++ e])
  | .ok r =>
    if r.status ≠ 200 then
      (none, ev, ["Error accessing SEC API: " ++ toString r.status])
    else
      match r.body with
      | .error e => (none, ev, ["Error looking up company: " ++ e])
      | .ok table =>
        match table.find? (fun en => en.ticker == pyUpper ticker) with
        | some en => (some ⟨zfill (toString en.cik_str) 10, en.title, en.ticker⟩, ev, [])
        | none => (none, ev, [])

/-! ## Filing catalog and filter (get_filings, src lines 152 to 196) -/

/-- Parallel sequences of the filings.recent object.  reportDate is optional
because the source reads it with dict.get and the default list containing
one empty string (src line 189). -/
structure RecentFilings where
  form : List String
  filingDate : List String
  accessionNumber : List String
  primaryDocument : List String
  reportDate : Option (List String)
deriving DecidableEq

/-- The filings object; recent is optional because the source indexes it
directly and a missing key raises KeyError. -/
structure FilingsField where
  recent : Option RecentFilings
deriving DecidableEq

/-- Top-level submissions document; the source explicitly tests whether the
filings key is present. -/
structure SubmissionsData where
  filings : Option FilingsField
deriving DecidableEq

/-- One record appended by the filter loop (src lines 185 to 190). -/
structure Filing where
  date : String
  form : String
  url : String
  description : String
deriving DecidableEq

/-- Embeds Python list subscripting, which raises IndexError out of range. -/
def pyGet {α : Type} (l : List α) (i : Nat) : Except String α :=
  if h : i < l.length then .ok (l.get ⟨i, h⟩) else .error "IndexError"

/-- Embeds one iteration of the filter loop (src lines 178 to 190), with the
evaluation order of the source: the form comparison first, then the date
parse and window test, then the URL construction and the record append,
whose reportDate access uses dict.get with the one-empty-string default. -/
def loopIter (cik ft : String) (s e : Int) (r : RecentFilings) (i : Nat) :
    Except String (Option Filing) :=
  match pyGet r.form i with
  | .error m => .error m
  | .ok f =>
    if f = ft then
      match pyGet r.filingDate i with
      | .error m => .error m
      | .ok ds =>
        match parseDate ds with
        | .error m => .error m
        | .ok dt =>
          if s ≤ dt ∧ dt ≤ e then
            match pyGet r.accessionNumber i, pyGet r.primaryDocument i,
                  pyGet (r.reportDate.getD [""]) i with
            | .ok acc, .ok doc, .ok rep =>
              .ok (some ⟨ds, f, documentUrl cik acc doc, rep⟩)
            | .error m, _, _ => .error m
            | _, .error m, _ => .error m
            | _, _, .error m => .error m
          else .ok none
    else .ok none

/-- Runs the filter loop over a list of positions, left to right, keeping
the order of appends and aborting on the first raised exception. -/
def loopFrom (cik ft : String) (s e : Int) (r : RecentFilings) :
    List Nat → Except String (List Filing)
  | [] => .ok []
  | i :: rest =>
    match loopIter cik ft s e r i with
    | .error m => .error m
    | .ok o =>
      match loopFrom cik ft s e r rest with
      | .error m => .error m
      | .ok tl => .ok (match o with | none => tl | some f => f :: tl)

/-- Embeds the body of get_filings from the parsed submissions document on
(src lines 169 to 192): the explicit filings-key check emits an st.error
and returns the empty list normally, a missing recent key raises, and the
loop walks positions zero to the length of the form sequence. -/
def process_filings (cik ft : String) (days_back : Nat) (now : Int)
    (data : SubmissionsData) : Except String (List Filing × List String) :=
  match data.filings with
  | none => .ok ([], ["Invalid response format from SEC"])
  | some fo =>
    match fo.recent with
    | none => .error "KeyError: recent"
    | some r =>
      match loopFrom cik ft (now - (days_back : Int)) now r (List.range r.form.length) with
      | .error m => .error m
      | .ok l => .ok (l, [])

/-- Embeds get_filings.  Parameters: the two responses the network would
deliver (company table, submissions document) and the current time as a day
ordinal.  The result is the returned filing list, the issued request
events, and the emitted st.error messages; every exception of the body is
caught by the try/except and yields the empty list. -/
def get_filings (ticker ft : String) (days_back : Nat) (now : Int)
    (tr : Except String (Response (List TickerEntry)))
    (sr : Except String (Response SubmissionsData)) :
    List Filing × List HttpEvent × List String :=
  match get_company_info ticker tr with
  | (none, ev1, er1) => ([], ev1, er1)
  | (some c, ev1, er1) =>
    let ev := ev1 ++ [sec_request_event (submissionsUrl c.cik)]
    match sr with
    | .error e => ([], ev, er1 ++ ["Error processing filings: " ++ e])
    | .ok resp =>
      if resp.status ≠ 200 then
        ([], ev, er1 ++ ["Error fetching filings: " ++ toString resp.status])
      else
        match resp.body with
        | .error e => ([], ev, er1 ++ ["Error processing filings: " ++ e])
        | .ok data =>
          match process_filings c.cik ft days_back now data with
          | .ok (l, msgs) => (l, ev, er1 ++ msgs)
          | .error e => ([], ev, er1 ++ ["Error processing filings: " ++ e])

/-! ## Regex-driven metric extraction (FinancialMetricsExtractor, src lines 30 to 57)

The metric patterns of the source use only literals, character classes,
alternation, option and character-class repetition, so they are embedded
into a small backtracking matcher whose result list enumerates the possible
remainders in the priority order of the Python re module: alternatives left
to right, repetition greedy (longest first), option greedy.  The head of
the list is therefore the remainder re would choose; re.finditer scans
positions left to right and continues after each match. -/

inductive RE where
  | eps : RE
  | cls : (Char → Bool) → RE
  | seq : RE → RE → RE
  | alt : RE → RE → RE
  | opt : RE → RE
  | star : (Char → Bool) → RE

/-- Remainders after consuming a greedy character-class repetition, longest
consumption first. -/
def starRems (p : Char → Bool) : List Char → List (List Char)
  | [] => [[]]
  | c :: rest => if p c then starRems p rest ++ [c :: rest] else [c :: rest]

/-- All remainders after matching the expression at the front of the input,
in backtracking priority order. -/
def reMatches : RE → List Char → List (List Char)
  | .eps, s => [s]
  | .cls _, [] => []
  | .cls p, c :: rest => if p c then [rest] else []
  | .seq a b, s => (reMatches a s).flatMap (fun s2 => reMatches b s2)
  | .alt a b, s => reMatches a s ++ reMatches b s
  | .opt a, s => reMatches a s ++ [s]
  | .star p, s => starRems p s

/-- Remainder of the match the re module would produce at this position. -/
def firstMatchEnd (re : RE) (s : List Char) : Option (List Char) :=
  (reMatches re s).head?

/-- Embeds re.finditer: scan left to right, yield each non-overlapping
match (as the matched substring, group zero) and continue after its end.
The scan walks the suffixes of the input structurally; the skip counter
carries how many further positions lie inside the match just yielded. -/
def findIterAux (re : RE) : List Char → Nat → List (List Char)
  | [], skip =>
    if skip = 0 then
      match firstMatchEnd re [] with
      | some _ => [[]]
      | none => []
    else []
  | c :: rest, skip =>
    match skip with
    | n + 1 => findIterAux re rest n
    | 0 =>
      match firstMatchEnd re (c :: rest) with
      | none => findIterAux re rest 0
      | some rem =>
        if rem.length < (c :: rest).length then
          (c :: rest).take ((c :: rest).length - rem.length)
            :: findIterAux re rest ((c :: rest).length - rem.length - 1)
        else [] :: findIterAux re rest 0

def findIter (re : RE) (s : List Char) : List (List Char) := findIterAux re s 0

/-- Embeds re.search: matched substring at the leftmost matching position. -/
def reSearch (re : RE) (s : List Char) : Option (List Char) :=
  match s with
  | [] => (firstMatchEnd re []).map (fun _ => [])
  | c :: rest =>
    match firstMatchEnd re (c :: rest) with
    | none => reSearch re rest
    | some rem => some ((c :: rest).take ((c :: rest).length - rem.length))

/-- Case-insensitive literal, as under the inline ignore-case flag. -/
def lit (s : String) : RE :=
  s.data.foldr (fun c r => RE.seq (RE.cls (fun x => x.toLower == c.toLower)) r) RE.eps

def isDigitComma (c : Char) : Bool := c.isDigit || c == ','

def isSpaceChar (c : Char) : Bool :=
  c == ' ' || c == '\t' || c == '\n' || c == '\r' || c == '\x0b' || c == '\x0c'

def isColonSpace (c : Char) : Bool := c == ':' || isSpaceChar c

/-- Embeds the number segment pattern of src line 46: an optional dollar
sign, one or more digits or commas, an optional dot, digits. -/
def numberRE : RE :=
  RE.seq (RE.opt (RE.cls (fun c => c == '$')))
    (RE.seq (RE.cls isDigitComma)
      (RE.seq (RE.star isDigitComma)
        (RE.seq (RE.opt (RE.cls (fun c => c == '.'))) (RE.star Char.isDigit))))

/-- Embeds the optional magnitude suffix group, alternatives in source
order: million, billion, thousand, m, b, k. -/
def unitRE : RE :=
  RE.alt (lit "million") (RE.alt (lit "billion") (RE.alt (lit "thousand")
    (RE.alt (lit "m") (RE.alt (lit "b") (lit "k")))))

/-- Embeds a metric pattern with the trailing whitespace and optional
magnitude suffix (revenue, net_income, operating_income, cash_flow). -/
def metricRE (label : RE) : RE :=
  RE.seq label (RE.seq (RE.star isColonSpace)
    (RE.seq (RE.opt (RE.cls (fun c => c == '$')))
      (RE.seq (RE.cls isDigitComma)
        (RE.seq (RE.star isDigitComma)
          (RE.seq (RE.opt (RE.cls (fun c => c == '.')))
            (RE.seq (RE.star Char.isDigit)
              (RE.seq (RE.star isSpaceChar) (RE.opt unitRE))))))))

/-- Embeds the eps pattern, which has no magnitude suffix group. -/
def metricRENoUnit (label : RE) : RE :=
  RE.seq label (RE.seq (RE.star isColonSpace)
    (RE.seq (RE.opt (RE.cls (fun c => c == '$')))
      (RE.seq (RE.cls isDigitComma)
        (RE.seq (RE.star isDigitComma)
          (RE.seq (RE.opt (RE.cls (fun c => c == '.'))) (RE.star Char.isDigit))))))

/-- Embeds the metrics_patterns table of src lines 33 to 39, in insertion
order. -/
def metrics_patterns : List (String × RE) :=
  [("revenue", metricRE (RE.alt (lit "total revenue") (RE.alt (lit "net revenue") (lit "revenue")))),
   ("net_income", metricRE (RE.alt (lit "net income") (lit "net earnings"))),
   ("eps", metricRENoUnit (RE.alt (lit "earnings per share") (lit "eps"))),
   ("operating_income", metricRE (lit "operating income")),
   ("cash_flow", metricRE (lit "operating cash flow"))]

def natOfDigits (l : List Char) : Nat :=
  l.foldl (fun a c => a * 10 + (c.toNat - 48)) 0

/-- Embeds Python float applied to the cleaned number segment, which by
construction consists of digits and at most one dot: float succeeds when
at least one digit is present, otherwise raises ValueError (none). -/
def pyFloat (s : List Char) : Option Rat :=
  if s.any Char.isDigit && s.all (fun c => c.isDigit || c == '.') && s.count '.' ≤ 1 then
    let ip := s.takeWhile (fun c => c != '.')
    let fp := (s.dropWhile (fun c => c != '.')).drop 1
    some ((natOfDigits ip : Rat) + (natOfDigits fp : Rat) / ((10 : Rat) ^ fp.length))
  else none

/-- Embeds _parse_number (src lines 52 to 57): strip dollar signs and
commas, then parse as float, and a parse failure is caught and becomes
None rather than an exception. -/
def parse_number (s : List Char) : Option Rat :=
  pyFloat (s.filter (fun c => !(c == '$' || c == ',')))

/-- Entries collected for one metric pattern (src lines 44 to 49): for each
finditer match, search its text for the number segment; when found, append
the parse result, which is None exactly when the parse failed. -/
def metricEntries (re : RE) (text : List Char) : List (Option Rat) :=
  (findIter re text).filterMap (fun m => (reSearch numberRE m).map parse_number)

/-- Embeds extract_metrics (src lines 41 to 50).  The defaultdict holds a
key exactly when at least one value was appended for it, in pattern order. -/
def extract_metrics (text : String) : List (String × List (Option Rat)) :=
  metrics_patterns.filterMap (fun p =>
    let es := metricEntries p.2 text.data
    if es.isEmpty then none else some (p.1, es))

/-! ## Filing content analysis (analyze_filing_content, src lines 67 to 89)

The document fetch on src line 71 is a direct requests.get, not a
sec_request call, so its event carries no enforced delay.  Markup stripping
(BeautifulSoup get_text) and the TextBlob sentiment scorer are external
libraries, passed in as functions. -/

structure Analysis where
  metrics : List (String × List (Option Rat))
  polarity : Rat
  subjectivity : Rat
  text_length : Nat

/-- Embeds analyze_filing_content: one direct requests.get with no delay,
none on non-200, metric extraction and sentiment on the stripped text, and
the surrounding try/except turning any exception into none plus an error
message. -/
def analyze_filing_content (strip : String → String) (sentiment : String → Rat × Rat)
    (url : String) (resp : Except String (Nat × String)) :
    Option Analysis × List HttpEvent × List String :=
  let ev := [(⟨url, 0⟩ : HttpEvent)]
  match resp with
  | .error e => (none, ev, ["Error analyzing filing: " ++ e])
  | .ok (status, bodyText) =>
    if status ≠ 200 then (none, ev, [])
    else
      let text := strip bodyText
      let m := extract_metrics text
      let sc := sentiment text
      (some ⟨m, sc.1, sc.2, text.data.length⟩, ev, [])

/-! ## Display aggregation (display_metrics, src lines 91 to 112, and
create_analysis_dataframe, src lines 242 to 258) -/

inductive MetricDisplay where
  | value : Rat → MetricDisplay
  | notFound : MetricDisplay
deriving DecidableEq

def isValueDisplay : MetricDisplay → Bool
  | .value _ => true
  | .notFound => false

/-- Arithmetic mean, embedding np.mean over the parsed values. -/
def mean (l : List Rat) : Rat := l.sum / (l.length : Rat)

/-- Embeds the metric column of display_metrics: one displayed item per
metric key that passes the guard (non-empty values with at least one
non-None); the displayed value is the mean of the non-None values, and the
else branch displays the not-found marker. -/
def display_metrics (metrics : List (String × List (Option Rat))) :
    List (String × MetricDisplay) :=
  metrics.filterMap (fun p =>
    if !p.2.isEmpty && p.2.any (fun v => v.isSome) then
      let valid := p.2.filterMap id
      if !valid.isEmpty then some (p.1, MetricDisplay.value (mean valid))
      else some (p.1, MetricDisplay.notFound)
    else none)

def analysisMetricNames : List (String × String) :=
  [("revenue", "Revenue"), ("net_income", "Net Income"), ("eps", "EPS"),
   ("operating_income", "Operating Income"), ("cash_flow", "Cash Flow")]

/-- Embeds create_analysis_dataframe: one row per fixed metric label; the
value is the mean of the non-None occurrences and the number zero when
there is no successfully parsed occurrence. -/
def create_analysis_dataframe (metrics : List (String × List (Option Rat))) :
    List (String × Rat) :=
  analysisMetricNames.map (fun p =>
    let values := ((metrics.find? (fun q => q.1 == p.1)).map Prod.snd).getD []
    let valid := values.filterMap id
    (p.2, if !valid.isEmpty then mean valid else 0))

/-! ## Memoization

Modelled from the spec: the caching wrapper st.cache_data(ttl=3600) applied
to get_company_info, get_filings and analyze_filing_content is provided by
the streamlit library and is not part of the sources under src; following
the CacheEntry description of the spec, an entry wraps a memoized result
with a time-to-live of 3600 seconds from creation, an entry older than its
TTL is never returned, and a hit performs no network request. -/

def cacheTTL : Int := 3600

/-- Modelled from the spec: look up a live cache entry for a key; an entry
older than the TTL is never returned. -/
def cacheLookup {α : Type} (entries : List (String × α × Int)) (tNow : Int)
    (k : String) : Option α :=
  match entries.find? (fun e => e.1 == k) with
  | some (_, v, t) => if tNow - t < cacheTTL then some v else none
  | none => none

/-- Modelled from the spec: one call through the memoizing wrapper, giving
the result, the updated cache and the number of network requests issued. -/
def cachedCall {α : Type} (fetch : String → α) (entries : List (String × α × Int))
    (tNow : Int) (k : String) : α × List (String × α × Int) × Nat :=
  match cacheLookup entries tNow k with
  | some v => (v, entries, 0)
  | none => (fetch k, (k, fetch k, tNow) :: entries, 1)

/-! ## Claim-side definitions and shared concrete inputs -/

/-- Formalizes, following the words of the claim, the inclusion condition
of the filter: the form sequence at position i equals the requested form
type by exact case-sensitive string equality, and the parsed filing date
lies in the inclusive window from s to e. -/
def specIncluded (ft : String) (s e : Int) (r : RecentFilings) (i : Nat) : Bool :=
  decide (r.form.getD i "" = ft) &&
    (match parseDate (r.filingDate.getD i "") with
     | .ok dt => decide (s ≤ dt) && decide (dt ≤ e)
     | .error _ => false)

/-- Record produced for an included position, as the claim describes it:
the parallel sequences read at position i with the document URL built from
identifier, accession and primary document. -/
def specRecord (cik : String) (r : RecentFilings) (i : Nat) : Filing :=
  ⟨r.filingDate.getD i "", r.form.getD i "",
   documentUrl cik (r.accessionNumber.getD i "") (r.primaryDocument.getD i ""),
   (r.reportDate.getD [""]).getD i ""⟩

/-- Concrete ticker-table response with one Apple entry, 200 and well
formed, shared by several theorems. -/
def tickOK : Except String (Response (List TickerEntry)) :=
  .ok ⟨200, .ok [⟨320193, "AAPL", "Apple Inc."⟩]⟩

/-- Catalog document whose filings object lacks the recent key. -/
def dataNoRecent : SubmissionsData := ⟨some ⟨none⟩⟩

/-- Catalog document with no reportDate sequence and a matching filing at
position one, so that the record construction raises IndexError on the
one-element default reportDate list. -/
def dataMissingReport : SubmissionsData :=
  ⟨some ⟨some ⟨["10-Q", "10-K"], ["2026-10-02", "2026-10-02"],
    ["0000320193-26-000001", "0000320193-26-000002"], ["a1.htm", "a2.htm"], none⟩⟩⟩

/-- Example catalog of the spec scenario: two filings ten days old, one of
each form type, and one two hundred days old, relative to a now of the
twelfth of October 2026. -/
def recentExample : RecentFilings :=
  ⟨["10-K", "10-Q", "10-K"],
   ["2026-10-02", "2026-10-02", "2026-03-26"],
   ["0000320193-26-000001", "0000320193-26-000002", "0000320193-26-000003"],
   ["a1.htm", "a2.htm", "a3.htm"],
   some ["2026-09-30", "2026-09-30", "2026-03-20"]⟩

/-! ## Claim theorems -/

/-- C2, counterexample: sec_request has no retry logic, so for the queued
response sequence 429 then 200 the caller receives the 429 response, the
200 response is never consumed, and the claimed retry outcome is false. -/
theorem c2_counterexample :
    (sec_request tickersUrl [⟨429⟩, ⟨200⟩]).1 = some ⟨429⟩
    ∧ (sec_request tickersUrl [⟨429⟩, ⟨200⟩]).2.1 = [⟨200⟩]
    ∧ decide ((sec_request tickersUrl [⟨429⟩, ⟨200⟩]).1 = some ⟨200⟩) = false := by
  exact ⟨rfl, rfl, rfl⟩

/-- C2, amended: sec_request waits 100 milliseconds and then issues exactly
one request, returning the first queued response unchanged regardless of
its status; there is no 429 retry, so a 429 followed by a queued 200 yields
the 429 response to the caller. -/
theorem c2_amended (url : String) (r : RawResponse) (rest : List RawResponse) :
    sec_request url (r :: rest) = (some r, rest, ⟨url, 100⟩) := rfl

/-- C5: metric extraction is a total function; for the billion-revenue text
the revenue pattern yields one successfully parsed value six fifths, for
the not-available text the pattern does not match at all, a match whose
number segment fails to parse as a float is recorded as none while
extraction of the remaining matches continues, and a pattern with no
recorded value contributes no entry rather than an error. -/
theorem c5_extraction_null_safety :
    extract_metrics "Total revenue: $1.2 billion" = [("revenue", [some (6/5 : Rat)])]
    ∧ extract_metrics "Total revenue: N/A" = []
    ∧ extract_metrics "Revenue: , and revenue: 5" = [("revenue", [none, some (5 : Rat)])]
    ∧ ∀ text : String, ((extract_metrics text).all (fun p => !p.2.isEmpty)) = true := by
  refine ⟨by with_unfolding_all rfl, by with_unfolding_all rfl, by with_unfolding_all rfl, ?_⟩
  intro text
  show ((metrics_patterns.filterMap (fun p =>
      let es := metricEntries p.2 text.data
      if es.isEmpty then none else some (p.1, es))).all (fun p => !p.2.isEmpty)) = true
  induction metrics_patterns with
  | nil => rfl
  | cons p rest ih =>
    simp only [List.filterMap_cons]
    by_cases h : (metricEntries p.2 text.data).isEmpty
    · simpa [h] using ih
    · simpa [h] using ih

/-- Helper: a list with at least one some element keeps an element after
filtering out the none entries. -/
theorem filterMap_id_not_empty {α : Type} (l : List (Option α))
    (h : l.any (fun v => v.isSome) = true) : (l.filterMap id).isEmpty = false := by
  induction l with
  | nil => simp at h
  | cons a rest ih =>
    cases a with
    | some v => simp [List.filterMap_cons]
    | none =>
      simp only [List.any_cons, Option.isSome_none, Bool.false_or] at h
      simpa [List.filterMap_cons] using ih h

/-- Helper: every element surviving a filterMap satisfies a predicate that
holds on every produced value. -/
theorem all_filterMap {α β : Type} {f : α → Option β} {q : β → Bool} {l : List α}
    (h : ∀ a b, f a = some b → q b = true) : ((l.filterMap f).all q) = true := by
  induction l with
  | nil => rfl
  | cons a rest ih =>
    rw [List.filterMap_cons]
    cases hfa : f a with
    | none => exact ih
    | some b => simp [List.all_cons, h a b hfa, ih]

/-- C6: where display_metrics presents a value it is the mean of the
non-None occurrences (three-value example), but a label whose occurrences
all failed to parse is silently skipped: the displayed list never contains
the not-found marker (the guard makes that branch unreachable), the
single-None metric displays nothing at all, and create_analysis_dataframe
reports the number zero for every metric without a successfully parsed
value. -/
theorem c6_aggregation_zero_bug :
    display_metrics [("revenue", [some 2, none, some 4])]
      = [("revenue", MetricDisplay.value 3)]
    ∧ display_metrics [("revenue", [none])] = []
    ∧ create_analysis_dataframe [("revenue", [none])]
      = [("Revenue", 0), ("Net Income", 0), ("EPS", 0), ("Operating Income", 0), ("Cash Flow", 0)]
    ∧ ∀ ms : List (String × List (Option Rat)),
        ((display_metrics ms).all (fun x => isValueDisplay x.2)) = true := by
  refine ⟨by with_unfolding_all rfl, by with_unfolding_all rfl, by with_unfolding_all rfl, ?_⟩
  intro ms
  apply all_filterMap
  intro p x hpx
  cases hg : (!p.2.isEmpty && p.2.any (fun v => v.isSome)) with
  | false =>
    rw [hg] at hpx
    simp at hpx
  | true =>
    rw [Bool.and_eq_true] at hg
    have hv : (p.2.filterMap id).isEmpty = false := filterMap_id_not_empty p.2 hg.2
    rw [hg.1, hg.2] at hpx
    simp only [Bool.and_self, if_true, hv] at hpx
    simp only [Bool.not_false, if_true] at hpx
    cases hpx
    rfl

/-- C7: ticker resolution goes through str.upper before the comparison with
the table entries, so any two tickers with the same uppercasing resolve to
the identical result against any response. -/
theorem c7_case_insensitive (t1 t2 : String)
    (tr : Except String (Response (List TickerEntry)))
    (h : pyUpper t1 = pyUpper t2) :
    get_company_info t1 tr = get_company_info t2 tr := by
  simp only [get_company_info, h]

/-- C7 witness: the uppercase and lowercase spellings of the Apple ticker
resolve identically against a concrete table response. -/
theorem c7_witness :
    pyUpper "AAPL" = pyUpper "aapl"
    ∧ get_company_info "AAPL" (.ok ⟨200, .ok [⟨320193, "AAPL", "Apple Inc."⟩]⟩)
        = get_company_info "aapl" (.ok ⟨200, .ok [⟨320193, "AAPL", "Apple Inc."⟩]⟩) :=
  ⟨by with_unfolding_all rfl,
   c7_case_insensitive "AAPL" "aapl" (.ok ⟨200, .ok [⟨320193, "AAPL", "Apple Inc."⟩]⟩)
     (by with_unfolding_all rfl)⟩

/-- C8: two calls through the memoizing wrapper with the same key, the
second within the 3600 second TTL of the first, issue exactly one fetch in
total, and the second call returns the cached first result. -/
theorem c8_cache_idempotent {α : Type} (fetch : String → α) (k : String)
    (t1 t2 : Int) (h : t2 - t1 < cacheTTL) :
    ((cachedCall fetch [] t1 k).2.2 + (cachedCall fetch (cachedCall fetch [] t1 k).2.1 t2 k).2.2 = 1)
    ∧ (cachedCall fetch (cachedCall fetch [] t1 k).2.1 t2 k).1 = (cachedCall fetch [] t1 k).1 := by
  have h1 : cachedCall fetch [] t1 k = (fetch k, [(k, fetch k, t1)], 1) := rfl
  rw [h1]
  simp [cachedCall, cacheLookup, h]

/-- C8 witness: a concrete second call ten seconds after the first hits the
cache. -/
theorem c8_cache_idempotent_witness :
    ((10 : Int) - 0 < cacheTTL)
    ∧ (((cachedCall (fun _ => (42 : Nat)) [] 0 "0000320193").2.2
         + (cachedCall (fun _ => (42 : Nat)) (cachedCall (fun _ => (42 : Nat)) [] 0 "0000320193").2.1 10 "0000320193").2.2 = 1)
       ∧ (cachedCall (fun _ => (42 : Nat)) (cachedCall (fun _ => (42 : Nat)) [] 0 "0000320193").2.1 10 "0000320193").1
           = (cachedCall (fun _ => (42 : Nat)) [] 0 "0000320193").1) :=
  ⟨by decide, c8_cache_idempotent (fun _ => 42) "0000320193" 0 10 (by decide)⟩

/-- C9, counterexample: the document fetch of analyze_filing_content is a
direct requests.get with no preceding sleep, so its single request event
carries a zero delay, below the claimed 100 millisecond minimum. -/
theorem c9_counterexample :
    (analyze_filing_content id (fun _ => (0, 0))
        "https://www.sec.gov/Archives/edgar/data/0000320193/000032019326000001/a1.htm"
        (.ok (200, "ok"))).2.1
      = [⟨"https://www.sec.gov/Archives/edgar/data/0000320193/000032019326000001/a1.htm", 0⟩]
    ∧ (0 : Nat) < 100 := by
  exact ⟨rfl, by decide⟩

/-- C9, amended: every request issued through sec_request, which covers the
ticker-table and filing-catalog fetches of the pipeline, is preceded by the
100 millisecond delay, while the per-document fetch of the metrics
extractor is issued directly with no delay at all. -/
theorem c9_amended (t ft : String) (d : Nat) (now : Int)
    (tr : Except String (Response (List TickerEntry)))
    (sr : Except String (Response SubmissionsData))
    (strip : String → String) (sent : String → Rat × Rat)
    (url : String) (resp : Except String (Nat × String)) :
    (((get_filings t ft d now tr sr).2.1).all (fun e => e.delayBeforeMs == 100)) = true
    ∧ (analyze_filing_content strip sent url resp).2.1 = [⟨url, 0⟩] := by
  constructor
  · have hcomp : (get_company_info t tr).2.1 = [sec_request_event tickersUrl] := by
      cases tr with
      | error e => rfl
      | ok r =>
        by_cases hs : r.status ≠ 200
        · simp [get_company_info, hs]
        · cases hb : r.body with
          | error e => simp [get_company_info, hs, hb]
          | ok table =>
            cases hf : table.find? (fun en => en.ticker == pyUpper t) with
            | some en => simp [get_company_info, hs, hb, hf]
            | none => simp [get_company_info, hs, hb, hf]
    cases hc : get_company_info t tr with
    | mk comp rest =>
      obtain ⟨evs, ers⟩ := rest
      have hev : evs = [sec_request_event tickersUrl] := by
        have := hcomp
        rw [hc] at this
        exact this
      subst hev
      cases comp with
      | none => simp [get_filings, hc, sec_request_event]
      | some c =>
        cases sr with
        | error e => simp [get_filings, hc, sec_request_event]
        | ok resp2 =>
          by_cases hs : resp2.status ≠ 200
          · simp [get_filings, hc, hs, sec_request_event]
          · cases hb : resp2.body with
            | error e => simp [get_filings, hc, hs, hb, sec_request_event]
            | ok data =>
              cases hp : process_filings c.cik ft d now data with
              | error e => simp [get_filings, hc, hs, hb, hp, sec_request_event]
              | ok lm => simp [get_filings, hc, hs, hb, hp, sec_request_event]
  · cases resp with
    | error e => rfl
    | ok p =>
      by_cases hs : p.1 ≠ 200
      · simp [analyze_filing_content, hs]
      · simp [analyze_filing_content, hs]

/-- C3, counterexample: the returned values do not form a typed failure
taxonomy.  get_company_info returns none both for an unknown ticker and for
a non-200 fetch, and get_filings returns the empty list both for a non-200
catalog fetch and for an empty catalog with no matches, so at the returned
value the fetch-error outcome is not distinguishable from the legitimate
unknown-ticker and no-match outcomes. -/
theorem c3_counterexample :
    (get_company_info "ZZZZ" tickOK).1 = none
    ∧ (get_company_info "AAPL" (.ok ⟨500, .error "server error"⟩)).1 = none
    ∧ (get_filings "AAPL" "10-K" 90 0 tickOK (.ok ⟨500, .error "server error"⟩)).1 = []
    ∧ (get_filings "AAPL" "10-K" 90 0 tickOK
        (.ok ⟨200, .ok ⟨some ⟨some ⟨[], [], [], [], none⟩⟩⟩⟩)).1 = [] := by
  exact ⟨by with_unfolding_all rfl, rfl, by with_unfolding_all rfl, by with_unfolding_all rfl⟩

/-- C3, amended: outcomes are distinguished only through the emitted UI
error messages, not through the returned value.  Unknown ticker returns
none with no error message; a non-200 table response, a transport
exception and a malformed body each return none together with a non-empty
error message; and a failing catalog fetch makes get_filings return the
empty list together with a non-empty error message. -/
theorem c3_amended (t1 t2 : String) (table : List TickerEntry)
    (r : Response (List TickerEntry)) (e : String) (c : Company)
    (tr : Except String (Response (List TickerEntry)))
    (ft : String) (d : Nat) (now : Int) (rs : Response SubmissionsData)
    (hU : table.find? (fun en => en.ticker == pyUpper t1) = none)
    (hS : r.status ≠ 200)
    (hC : (get_company_info t2 tr).1 = some c)
    (hRS : rs.status ≠ 200) :
    ((get_company_info t1 (.ok ⟨200, .ok table⟩)).1 = none
      ∧ (get_company_info t1 (.ok ⟨200, .ok table⟩)).2.2 = [])
    ∧ ((get_company_info t1 (.ok r)).1 = none
      ∧ ((get_company_info t1 (.ok r)).2.2).isEmpty = false)
    ∧ ((get_company_info t1 (.error e)).1 = none
      ∧ ((get_company_info t1 (.error e)).2.2).isEmpty = false)
    ∧ ((get_company_info t1 (.ok ⟨200, .error e⟩)).1 = none
      ∧ ((get_company_info t1 (.ok ⟨200, .error e⟩)).2.2).isEmpty = false)
    ∧ ((get_filings t2 ft d now tr (.ok rs)).1 = []
      ∧ ((get_filings t2 ft d now tr (.ok rs)).2.2).isEmpty = false) := by
  refine ⟨⟨?_, ?_⟩, ⟨?_, ?_⟩, ⟨rfl, rfl⟩, ⟨rfl, rfl⟩, ?_, ?_⟩
  · simp [get_company_info, hU]
  · simp [get_company_info, hU]
  · simp [get_company_info, hS]
  · simp [get_company_info, hS]
  · cases hc2 : get_company_info t2 tr with
    | mk comp rest =>
      rw [hc2] at hC
      cases hC
      obtain ⟨evs, ers⟩ := rest
      simp [get_filings, hc2, hRS]
  · cases hc2 : get_company_info t2 tr with
    | mk comp rest =>
      rw [hc2] at hC
      cases hC
      obtain ⟨evs, ers⟩ := rest
      simp [get_filings, hc2, hRS]

/-- C3 witness: the amended outcome distinctions at concrete inputs, an
unknown ticker, a 500 table response, a transport exception, a malformed
body, and a 500 catalog response after a successful Apple resolution. -/
theorem c3_amended_witness :
    (([⟨320193, "AAPL", "Apple Inc."⟩] : List TickerEntry).find?
        (fun en => en.ticker == pyUpper "ZZZZ") = none)
    ∧ ((500 : Nat) ≠ 200)
    ∧ ((get_company_info "AAPL" tickOK).1 = some ⟨"0000320193", "Apple Inc.", "AAPL"⟩)
    ∧ (((get_company_info "ZZZZ" (.ok ⟨200, .ok [⟨320193, "AAPL", "Apple Inc."⟩]⟩)).1 = none
        ∧ (get_company_info "ZZZZ" (.ok ⟨200, .ok [⟨320193, "AAPL", "Apple Inc."⟩]⟩)).2.2 = [])
      ∧ ((get_company_info "ZZZZ" (.ok ⟨500, .ok []⟩)).1 = none
        ∧ ((get_company_info "ZZZZ" (.ok ⟨500, .ok []⟩)).2.2).isEmpty = false)
      ∧ ((get_company_info "ZZZZ" (.error "timeout")).1 = none
        ∧ ((get_company_info "ZZZZ" (.error "timeout")).2.2).isEmpty = false)
      ∧ ((get_company_info "ZZZZ" (.ok ⟨200, .error "timeout"⟩)).1 = none
        ∧ ((get_company_info "ZZZZ" (.ok ⟨200, .error "timeout"⟩)).2.2).isEmpty = false)
      ∧ ((get_filings "AAPL" "10-K" 90 0 tickOK (.ok ⟨500, .ok ⟨none⟩⟩)).1 = []
        ∧ ((get_filings "AAPL" "10-K" 90 0 tickOK (.ok ⟨500, .ok ⟨none⟩⟩)).2.2).isEmpty = false)) :=
  ⟨by with_unfolding_all rfl, by decide, by with_unfolding_all rfl,
   c3_amended "ZZZZ" "AAPL" [⟨320193, "AAPL", "Apple Inc."⟩] ⟨500, .ok []⟩ "timeout"
     ⟨"0000320193", "Apple Inc.", "AAPL"⟩ tickOK "10-K" 90 0 ⟨500, .ok ⟨none⟩⟩
     (by with_unfolding_all rfl) (by decide) (by with_unfolding_all rfl) (by decide)⟩

/-- C10: get_filings is total at its interface: a transport exception, a
malformed body, and any exception inside catalog processing all yield the
empty list; in particular a filings object without the recent key raises
KeyError internally and returns the empty list, and a catalog without the
reportDate sequence but with a matching filing at position one raises
IndexError internally and returns the empty list. -/
theorem c10_get_filings_total :
    (∀ (t ft : String) (d : Nat) (now : Int)
       (tr : Except String (Response (List TickerEntry))) (e : String),
       (get_filings t ft d now tr (.error e)).1 = [])
    ∧ (∀ (t ft : String) (d : Nat) (now : Int)
       (tr : Except String (Response (List TickerEntry)))
       (resp : Response SubmissionsData) (e : String),
       resp.body = .error e → (get_filings t ft d now tr (.ok resp)).1 = [])
    ∧ (∀ (t ft : String) (d : Nat) (now : Int)
       (tr : Except String (Response (List TickerEntry)))
       (resp : Response SubmissionsData) (data : SubmissionsData),
       resp.body = .ok data →
       (∀ cik, isOkE (process_filings cik ft d now data) = false) →
       (get_filings t ft d now tr (.ok resp)).1 = [])
    ∧ process_filings "0000320193" "10-K" 90 (toOrdinal 2026 10 12) dataNoRecent
        = .error "KeyError: recent"
    ∧ (get_filings "AAPL" "10-K" 90 (toOrdinal 2026 10 12) tickOK
        (.ok ⟨200, .ok dataNoRecent⟩)).1 = []
    ∧ isOkE (process_filings "0000320193" "10-K" 90 (toOrdinal 2026 10 12) dataMissingReport)
        = false
    ∧ (get_filings "AAPL" "10-K" 90 (toOrdinal 2026 10 12) tickOK
        (.ok ⟨200, .ok dataMissingReport⟩)).1 = [] := by
  refine ⟨?_, ?_, ?_, rfl, by with_unfolding_all rfl,
    by with_unfolding_all rfl, by with_unfolding_all rfl⟩
  · intro t ft d now tr e
    cases hc : get_company_info t tr with
    | mk comp rest =>
      obtain ⟨evs, ers⟩ := rest
      cases comp with
      | none => simp [get_filings, hc]
      | some c => simp [get_filings, hc]
  · intro t ft d now tr resp e hb
    cases hc : get_company_info t tr with
    | mk comp rest =>
      obtain ⟨evs, ers⟩ := rest
      cases comp with
      | none => simp [get_filings, hc]
      | some c =>
        by_cases hs : resp.status ≠ 200
        · simp [get_filings, hc, hs]
        · simp [get_filings, hc, hs, hb]
  · intro t ft d now tr resp data hb hp
    cases hc : get_company_info t tr with
    | mk comp rest =>
      obtain ⟨evs, ers⟩ := rest
      cases comp with
      | none => simp [get_filings, hc]
      | some c =>
        by_cases hs : resp.status ≠ 200
        · simp [get_filings, hc, hs]
        · cases hpc : process_filings c.cik ft d now data with
          | error m => simp [get_filings, hc, hs, hb, hpc]
          | ok lm =>
            have := hp c.cik
            rw [hpc] at this
            simp [isOkE] at this

/-- C10 witness: the totality theorem applied at concrete inputs, a
malformed body and a catalog whose processing raises, discharging the
hypotheses by evaluation. -/
theorem c10_get_filings_total_witness :
    (get_filings "AAPL" "10-K" 90 0 tickOK (.error "timeout")).1 = []
    ∧ (get_filings "AAPL" "10-K" 90 0 tickOK (.ok ⟨200, .error "bad json"⟩)).1 = []
    ∧ (get_filings "AAPL" "10-K" 90 0 tickOK (.ok ⟨200, .ok dataNoRecent⟩)).1 = [] :=
  ⟨c10_get_filings_total.1 "AAPL" "10-K" 90 0 tickOK "timeout",
   c10_get_filings_total.2.1 "AAPL" "10-K" 90 0 tickOK ⟨200, .error "bad json"⟩ "bad json" rfl,
   c10_get_filings_total.2.2.1 "AAPL" "10-K" 90 0 tickOK ⟨200, .ok dataNoRecent⟩ dataNoRecent
     rfl (fun _ => rfl)⟩

/-- Helper: in-bounds Python indexing returns the element. -/
theorem pyGet_ok {α : Type} (l : List α) (i : Nat) (d : α) (h : i < l.length) :
    pyGet l i = .ok (l.getD i d) := by
  simp [pyGet, h, List.getD_eq_getElem, List.get_eq_getElem]

/-- Helper: one loop iteration on a well-formed catalog position produces
exactly the record demanded by the inclusion condition. -/
theorem loopIter_eq (cik ft : String) (s e : Int) (r : RecentFilings) (i : Nat)
    (hi : i < r.form.length)
    (hFD : r.form.length ≤ r.filingDate.length)
    (hAN : r.form.length ≤ r.accessionNumber.length)
    (hPD : r.form.length ≤ r.primaryDocument.length)
    (hRD : r.form.length ≤ (r.reportDate.getD [""]).length)
    (hD : isOkE (parseDate (r.filingDate.getD i "")) = true) :
    loopIter cik ft s e r i =
      .ok (cond (specIncluded ft s e r i) (some (specRecord cik r i)) none) := by
  have h1 := pyGet_ok r.form i "" hi
  have h2 := pyGet_ok r.filingDate i "" (lt_of_lt_of_le hi hFD)
  have h3 := pyGet_ok r.accessionNumber i "" (lt_of_lt_of_le hi hAN)
  have h4 := pyGet_ok r.primaryDocument i "" (lt_of_lt_of_le hi hPD)
  have h5 := pyGet_ok (r.reportDate.getD [""]) i "" (lt_of_lt_of_le hi hRD)
  by_cases hft : r.form.getD i "" = ft
  · cases hdt : parseDate (r.filingDate.getD i "") with
    | error m => rw [hdt] at hD; simp [isOkE] at hD
    | ok dt =>
      by_cases hw : s ≤ dt ∧ dt ≤ e
      · have hspec : specIncluded ft s e r i = true := by
          simp only [specIncluded, hft, hdt]
          simp [hw.1, hw.2]
        simp only [loopIter, h1, h2, h3, h4, h5, hdt]
        rw [if_pos hft, if_pos hw, hspec]
        simp only [Bool.cond_true, specRecord]
      · have hspec : specIncluded ft s e r i = false := by
          simp only [specIncluded, hdt, Bool.and_eq_false_iff]
          right
          by_cases hw1 : s ≤ dt
          · right
            simp only [decide_eq_false_iff_not]
            exact fun hw2 => hw ⟨hw1, hw2⟩
          · left
            simp only [decide_eq_false_iff_not]
            exact hw1
        simp only [loopIter, h1, h2, hdt]
        rw [if_pos hft, if_neg hw, hspec]
        simp only [Bool.cond_false]
  · have hspec : specIncluded ft s e r i = false := by
      simp only [specIncluded, Bool.and_eq_false_iff]
      left
      simp only [decide_eq_false_iff_not]
      exact hft
    simp only [loopIter, h1]
    rw [if_neg hft, hspec]
    simp only [Bool.cond_false]

/-- Helper: the filter loop over any in-bounds position list of a
well-formed catalog returns exactly the included positions, in order. -/
theorem loopFrom_eq (cik ft : String) (s e : Int) (r : RecentFilings)
    (hFD : r.form.length ≤ r.filingDate.length)
    (hAN : r.form.length ≤ r.accessionNumber.length)
    (hPD : r.form.length ≤ r.primaryDocument.length)
    (hRD : r.form.length ≤ (r.reportDate.getD [""]).length)
    (hD : ∀ i, i < r.form.length → isOkE (parseDate (r.filingDate.getD i "")) = true)
    (L : List Nat) (hmem : ∀ i ∈ L, i < r.form.length) :
    loopFrom cik ft s e r L =
      .ok ((L.filter (fun i => specIncluded ft s e r i)).map (specRecord cik r)) := by
  induction L with
  | nil => rfl
  | cons i rest ih =>
    have hi : i < r.form.length := hmem i (by simp)
    have hrest := ih (fun j hj => hmem j (List.mem_cons_of_mem i hj))
    simp only [loopFrom]
    rw [loopIter_eq cik ft s e r i hi hFD hAN hPD hRD (hD i hi), hrest]
    cases hinc : specIncluded ft s e r i with
    | true => simp [List.filter_cons, hinc]
    | false => simp [List.filter_cons, hinc]

/-- C1: on a well-formed catalog (parallel sequences at least as long as
the form sequence, parsable dates), reached through a resolved company and
a well-formed 200 response, get_filings returns exactly the records of the
positions whose form entry equals the requested form type by exact string
equality and whose date lies in the inclusive window from now minus the
window size to now, in catalog order; no other position contributes. -/
theorem c1_filter_iff (t ft : String) (d : Nat) (now : Int)
    (tr : Except String (Response (List TickerEntry)))
    (resp : Response SubmissionsData) (r : RecentFilings) (c : Company)
    (hc : (get_company_info t tr).1 = some c)
    (hs : resp.status = 200)
    (hb : resp.body = .ok ⟨some ⟨some r⟩⟩)
    (hFD : r.form.length ≤ r.filingDate.length)
    (hAN : r.form.length ≤ r.accessionNumber.length)
    (hPD : r.form.length ≤ r.primaryDocument.length)
    (hRD : r.form.length ≤ (r.reportDate.getD [""]).length)
    (hD : ∀ i, i < r.form.length → isOkE (parseDate (r.filingDate.getD i "")) = true) :
    (get_filings t ft d now tr (.ok resp)).1 =
      ((List.range r.form.length).filter
          (fun i => specIncluded ft (now - (d : Int)) now r i)).map (specRecord c.cik r) := by
  cases hc2 : get_company_info t tr with
  | mk comp rest =>
    obtain ⟨evs, ers⟩ := rest
    rw [hc2] at hc
    have hcomp : comp = some c := hc
    subst hcomp
    have hloop := loopFrom_eq c.cik ft (now - (d : Int)) now r hFD hAN hPD hRD hD
        (List.range r.form.length) (fun i hi => List.mem_range.mp hi)
    have hstat : ¬(resp.status ≠ 200) := by rw [hs]; simp
    simp only [get_filings, hc2, hb, process_filings, hloop]
    rw [if_neg hstat]

/-- C1 witness: the filter theorem applied to the concrete example catalog
with a ninety-day window, discharging every hypothesis by evaluation. -/
theorem c1_filter_iff_witness :
    ((get_company_info "AAPL" tickOK).1 = some ⟨"0000320193", "Apple Inc.", "AAPL"⟩)
    ∧ ((⟨200, .ok ⟨some ⟨some recentExample⟩⟩⟩ : Response SubmissionsData).status = 200)
    ∧ (recentExample.form.length ≤ recentExample.filingDate.length)
    ∧ (∀ i, i < recentExample.form.length →
        isOkE (parseDate (recentExample.filingDate.getD i "")) = true)
    ∧ (get_filings "AAPL" "10-K" 90 (toOrdinal 2026 10 12) tickOK
          (.ok ⟨200, .ok ⟨some ⟨some recentExample⟩⟩⟩)).1 =
        ((List.range recentExample.form.length).filter
            (fun i => specIncluded "10-K" ((toOrdinal 2026 10 12 : Int) - (90 : Nat))
              (toOrdinal 2026 10 12) recentExample i)).map
          (specRecord "0000320193" recentExample) :=
  ⟨by with_unfolding_all rfl, rfl, by decide, by decide,
   c1_filter_iff "AAPL" "10-K" 90 (toOrdinal 2026 10 12) tickOK
     ⟨200, .ok ⟨some ⟨some recentExample⟩⟩⟩ recentExample
     ⟨"0000320193", "Apple Inc.", "AAPL"⟩
     (by with_unfolding_all rfl) rfl rfl (by decide) (by decide) (by decide) (by decide)
     (by decide)⟩

/-- Helper: strings with equal character data are equal. -/
theorem stringExt {s t : String} (h : s.data = t.data) : s = t := by
  cases s
  cases t
  exact congrArg String.mk h

/-- Helper: string append concatenates the character data. -/
theorem strAppendData (s t : String) : (s ++ t).data = s.data ++ t.data := rfl

/-- Helper: a digit character is not a hyphen. -/
theorem digit_ne_dash (x : Char) (h : x.isDigit = true) : decide (x ≠ '-') = true := by
  rw [decide_eq_true_eq]
  intro he
  subst he
  exact absurd h (by decide)

/-- Helper: filtering the hyphens out of an all-digit list is the identity. -/
theorem filter_digits (l : List Char) (h : l.all Char.isDigit = true) :
    l.filter (fun ch => decide (ch ≠ '-')) = l := by
  rw [List.filter_eq_self]
  intro x hx
  exact digit_ne_dash x (List.all_eq_true.mp h x hx)

/-- Helper: a valid accession identifier decomposes into its three digit
groups around the two hyphens. -/
theorem validAccession_decomp (s : String) (h : validAccession s = true) :
    ∃ a b c : List Char, s.data = a ++ '-' :: (b ++ '-' :: c) ∧
      a.length = 10 ∧ b.length = 2 ∧ c.length = 6 ∧
      a.all Char.isDigit = true ∧ b.all Char.isDigit = true ∧ c.all Char.isDigit = true := by
  simp only [validAccession, Bool.and_eq_true, decide_eq_true_eq] at h
  obtain ⟨⟨⟨⟨⟨h1, h2⟩, h3⟩, h4⟩, h5⟩, h6⟩ := h
  refine ⟨s.data.take 10, (s.data.drop 11).take 2, s.data.drop 14, ?_, ?_, ?_, ?_, h2, h4, h6⟩
  · have e1 : s.data = s.data.take 10 ++ s.data.drop 10 := (List.take_append_drop 10 s.data).symm
    have e2 : s.data.drop 10 = (s.data.drop 10).take 1 ++ (s.data.drop 10).drop 1 :=
      (List.take_append_drop 1 (s.data.drop 10)).symm
    have e3 : (s.data.drop 10).drop 1 = s.data.drop 11 := by
      rw [List.drop_drop]
    have e4 : s.data.drop 11 = (s.data.drop 11).take 2 ++ (s.data.drop 11).drop 2 :=
      (List.take_append_drop 2 (s.data.drop 11)).symm
    have e5 : (s.data.drop 11).drop 2 = s.data.drop 13 := by
      rw [List.drop_drop]
    have e6 : s.data.drop 13 = (s.data.drop 13).take 1 ++ (s.data.drop 13).drop 1 :=
      (List.take_append_drop 1 (s.data.drop 13)).symm
    have e7 : (s.data.drop 13).drop 1 = s.data.drop 14 := by
      rw [List.drop_drop]
    conv_lhs => rw [e1, e2, e3, e4, e5, e6, e7]
    rw [h3, h5]
    simp [List.append_assoc]
  · rw [List.length_take, h1]
    omega
  · rw [List.length_take, List.length_drop, h1]
    omega
  · rw [List.length_drop, h1]

/-- Helper: cancelling the common URL scaffolding recovers the three
components when the first two have fixed lengths. -/
theorem urlDataInj (P u1 s1 w1 u2 s2 w2 : List Char)
    (hu : u1.length = u2.length) (hs : s1.length = s2.length)
    (h : P ++ (u1 ++ ('/' :: (s1 ++ ('/' :: w1)))) = P ++ (u2 ++ ('/' :: (s2 ++ ('/' :: w2))))) :
    u1 = u2 ∧ s1 = s2 ∧ w1 = w2 := by
  have h1 := List.append_cancel_left h
  obtain ⟨hueq, h3⟩ := List.append_inj h1 hu
  injection h3 with _ h4
  obtain ⟨hseq, h6⟩ := List.append_inj h4 hs
  injection h6 with _ h7
  exact ⟨hueq, hseq, h7⟩

/-- Helper: stripping hyphens from a decomposed valid accession keeps
exactly the three digit groups. -/
theorem stripHyphens_decomp (x y z : List Char)
    (hx : x.all Char.isDigit = true) (hy : y.all Char.isDigit = true)
    (hz : z.all Char.isDigit = true) :
    (x ++ '-' :: (y ++ '-' :: z)).filter (fun ch => decide (ch ≠ '-')) = x ++ (y ++ z) := by
  rw [List.filter_append, filter_digits x hx, List.filter_cons_of_neg, List.filter_append,
    filter_digits y hy, List.filter_cons_of_neg, filter_digits z hz]
  · simp
  · simp

/-- C4: over valid 10-digit identifiers and valid accession identifiers the
document URL construction is injective in the triple of identifier,
accession identifier and primary document filename, and as a pure function
it is reproducible on repeated application. -/
theorem c4_documentUrl_injective (k1 n1 p1 k2 n2 p2 : String)
    (hk1 : validCik k1 = true) (hk2 : validCik k2 = true)
    (hn1 : validAccession n1 = true) (hn2 : validAccession n2 = true)
    (heq : documentUrl k1 n1 p1 = documentUrl k2 n2 p2) :
    (k1 = k2 ∧ n1 = n2 ∧ p1 = p2) ∧ documentUrl k1 n1 p1 = documentUrl k1 n1 p1 := by
  refine ⟨?_, rfl⟩
  obtain ⟨x1, y1, z1, hd1, hx1, hy1, hz1, hax1, hay1, haz1⟩ := validAccession_decomp n1 hn1
  obtain ⟨x2, y2, z2, hd2, hx2, hy2, hz2, hax2, hay2, haz2⟩ := validAccession_decomp n2 hn2
  simp only [validCik, Bool.and_eq_true, decide_eq_true_eq] at hk1 hk2
  have hs1 : (stripHyphens n1).data = x1 ++ (y1 ++ z1) := by
    show n1.data.filter (fun ch => decide (ch ≠ '-')) = x1 ++ (y1 ++ z1)
    rw [hd1]
    exact stripHyphens_decomp x1 y1 z1 hax1 hay1 haz1
  have hs2 : (stripHyphens n2).data = x2 ++ (y2 ++ z2) := by
    show n2.data.filter (fun ch => decide (ch ≠ '-')) = x2 ++ (y2 ++ z2)
    rw [hd2]
    exact stripHyphens_decomp x2 y2 z2 hax2 hay2 haz2
  have hls1 : (stripHyphens n1).data.length = 18 := by
    rw [hs1]
    simp [hx1, hy1, hz1]
  have hls2 : (stripHyphens n2).data.length = 18 := by
    rw [hs2]
    simp [hx2, hy2, hz2]
  have hdata : (documentUrl k1 n1 p1).data = (documentUrl k2 n2 p2).data := by rw [heq]
  have hshape : ∀ k n p : String, (documentUrl k n p).data
      = archiveBase.data ++ (k.data ++ ('/' :: ((stripHyphens n).data ++ ('/' :: p.data)))) := by
    intro k n p
    show (archiveBase ++ k ++ "/" ++ stripHyphens n ++ "/" ++ p).data = _
    simp only [strAppendData, List.append_assoc]
    rfl
  rw [hshape, hshape] at hdata
  obtain ⟨hkd, hsd, hpd⟩ := urlDataInj archiveBase.data k1.data (stripHyphens n1).data p1.data
    k2.data (stripHyphens n2).data p2.data (by rw [hk1.1, hk2.1]) (by rw [hls1, hls2]) hdata
  refine ⟨stringExt hkd, ?_, stringExt hpd⟩
  rw [hs1, hs2] at hsd
  obtain ⟨hxy, hyz⟩ := List.append_inj hsd (by rw [hx1, hx2])
  obtain ⟨hyy, hzz⟩ := List.append_inj hyz (by rw [hy1, hy2])
  apply stringExt
  rw [hd1, hd2, hxy, hyy, hzz]

/-- C4 witness: the injectivity theorem applied at a concrete valid
identifier, accession and document triple. -/
theorem c4_documentUrl_injective_witness :
    (validCik "0000320193" = true ∧ validAccession "0000320193-26-000001" = true)
    ∧ ((("0000320193" : String) = "0000320193"
         ∧ ("0000320193-26-000001" : String) = "0000320193-26-000001"
         ∧ ("a1.htm" : String) = "a1.htm")
       ∧ documentUrl "0000320193" "0000320193-26-000001" "a1.htm"
           = documentUrl "0000320193" "0000320193-26-000001" "a1.htm") :=
  ⟨⟨by decide, by decide⟩,
   c4_documentUrl_injective "0000320193" "0000320193-26-000001" "a1.htm"
     "0000320193" "0000320193-26-000001" "a1.htm"
     (by decide) (by decide) (by decide) (by decide) rfl⟩
